import Mathlib

/-!
Verification of the JobCopilot core against its specification.

The visible repository is the front-end (TypeScript/React); its data model
lives in `src/frontend/src/types/index.ts` and the lifecycle handlers in
`src/frontend/src/pages/Applications.tsx`.  The pipeline orchestrator, the
matching engine and the lifecycle validator are the conceptual backend the
front-end calls; where a definition is absent from the visible sources it is
modelled from the specification and marked as such in its doc comment.

Dates/timestamps (ISO strings in the sources) are modelled as natural
numbers; salary bounds (`number | null`) are modelled as `Option Nat`.
-/

namespace JobZoom

/-- Application status union from `types/index.ts`
(`'preparing' | 'ready' | 'submitted' | 'interview' | 'offer' | 'rejected'`). -/
inductive AppStatus where
  | preparing
  | ready
  | submitted
  | interview
  | offer
  | rejected
deriving DecidableEq, Repr

/-- The string literal of an `AppStatus`, as it appears in the TypeScript union. -/
def statusStr : AppStatus → String
  | .preparing => "preparing"
  | .ready => "ready"
  | .submitted => "submitted"
  | .interview => "interview"
  | .offer => "offer"
  | .rejected => "rejected"

/-- The `remote_status` union from `types/index.ts`. -/
inductive RemoteStatus where
  | remote
  | hybrid
  | onsite
deriving DecidableEq, Repr

/-- Job `status` union from `types/index.ts`. -/
inductive JobStatus where
  | new
  | matched
  | applied
  | rejected
  | expired
deriving DecidableEq, Repr

/-- Structure `SalaryRange` from `types/index.ts`: `min`/`max` are `number | null`. -/
structure SalaryRange where
  min : Option Nat
  max : Option Nat
deriving DecidableEq, Repr

/-- Structure `Job` from `types/index.ts`. -/
structure Job where
  job_id : String
  title : String
  company : String
  location : String
  remote_status : RemoteStatus
  salary_range : SalaryRange
  job_type : String
  posted_date : Option Nat
  description : String
  requirements : List String
  responsibilities : List String
  application_url : String
  source_url : String
  scraped_at : Nat
  status : JobStatus
deriving DecidableEq, Repr

/-- Structure `TimelineEntry` from `types/index.ts`: `(status, date, note)`. -/
structure TimelineEntry where
  status : AppStatus
  date : Nat
  note : String
deriving DecidableEq, Repr

/-- Structure `Application` from `types/index.ts`. -/
structure Application where
  app_id : String
  job_id : String
  user_id : String
  status : AppStatus
  match_score : Nat
  tailored_resume : String
  cover_letter : String
  form_answers : List (String × String)
  submitted_at : Option Nat
  timeline : List TimelineEntry
  job : Option Job
deriving DecidableEq, Repr

/-- Structure `Personal` from `types/index.ts`. -/
structure Personal where
  name : String
  email : String
  phone : String
  location : String
  linkedin : String
deriving DecidableEq, Repr

/-- The `remote_preference` union from `types/index.ts`. -/
inductive RemotePreference where
  | remote_only
  | hybrid_ok
  | onsite_ok
  | any
deriving DecidableEq, Repr

/-- Structure `JobPreferences` from `types/index.ts`. -/
structure JobPreferences where
  target_titles : List String
  locations : List String
  remote_preference : RemotePreference
  salary_min : Option Nat
  salary_max : Option Nat
  job_types : List String
deriving DecidableEq, Repr

/-- Structure `Filters` from `types/index.ts`. -/
structure Filters where
  required_keywords : List String
  excluded_keywords : List String
  blacklisted_companies : List String
deriving DecidableEq, Repr

/-- Structure `Experience` from `types/index.ts`. -/
structure Experience where
  company : String
  title : String
  duration : String
  bullets : List String
deriving DecidableEq, Repr

/-- Structure `Education` from `types/index.ts`. -/
structure Education where
  institution : String
  degree : String
  year : String
deriving DecidableEq, Repr

/-- Structure `Skills` from `types/index.ts`. -/
structure Skills where
  technical : List String
  tools : List String
  soft : List String
deriving DecidableEq, Repr

/-- One project record of `ParsedResume` from `types/index.ts`. -/
structure Project where
  name : String
  description : String
  tech : List String
deriving DecidableEq, Repr

/-- Structure `ParsedResume` from `types/index.ts`. -/
structure ParsedResume where
  summary : String
  experience : List Experience
  education : List Education
  skills : Skills
  certifications : List String
  projects : List Project
  extracted_keywords : List String
deriving DecidableEq, Repr

/-- Structure `Resume` from `types/index.ts`. -/
structure Resume where
  raw_text : String
  parsed : Option ParsedResume
  file_path : String
deriving DecidableEq, Repr

/-- Structure `UserProfile` from `types/index.ts`. -/
structure UserProfile where
  user_id : String
  personal : Personal
  job_preferences : JobPreferences
  filters : Filters
  resume : Resume
deriving DecidableEq, Repr

/-- Structure `MatchResult` from the spec data model (§3): scored pair with ordered
highlight strings and the computation timestamp. -/
structure MatchResult where
  user_id : String
  job_id : String
  score : Nat
  highlights : List String
  computed_at : Nat
deriving DecidableEq, Repr

/-! ## Front-end lifecycle handlers (`pages/Applications.tsx`) -/

/-- The note actually stored by `handleUpdateStatus`
(`note || \x7bStatus changed to $\x7bstatus\x7d\x7d`): a missing or empty
(falsy) note is replaced by the default message. -/
def noteOrDefault (note : Option String) (status : AppStatus) : String :=
  match note with
  | none => "Status changed to " ++ statusStr status
  | some s => if s = "" then "Status changed to " ++ statusStr status else s

/-- Per-application effect of `handleUpdateStatus` (Applications.tsx:165-185):
spread the application, overwrite `status`, and append one timeline entry
`\x7bstatus, date: now, note: note || default\x7d`. -/
def handleUpdateStatusApp (app : Application) (status : AppStatus)
    (note : Option String) (now : Nat) : Application :=
  { app with
    status := status,
    timeline := app.timeline ++ [{ status := status, date := now,
                                   note := noteOrDefault note status }] }

/-- Per-application effect of `handleAddNote` (Applications.tsx:187-206):
append one timeline entry carrying the application's current status. -/
def handleAddNoteApp (app : Application) (note : String) (now : Nat) :
    Application :=
  { app with
    timeline := app.timeline ++ [{ status := app.status, date := now,
                                   note := note }] }

/-- List-level `handleUpdateStatus`: `prev.map(app => app.app_id === appId ? ... : app)`. -/
def handleUpdateStatus (apps : List Application) (appId : String)
    (status : AppStatus) (note : Option String) (now : Nat) : List Application :=
  apps.map (fun app =>
    if app.app_id = appId then handleUpdateStatusApp app status note now else app)

/-- List-level `handleAddNote`: `prev.map(app => app.app_id === appId ? ... : app)`. -/
def handleAddNote (apps : List Application) (appId : String) (note : String)
    (now : Nat) : List Application :=
  apps.map (fun app =>
    if app.app_id = appId then handleAddNoteApp app note now else app)

/-- Function `filteredApplications` (Applications.tsx:161-163):
`statusFilter ? applications.filter(app => app.status === statusFilter) : applications`.
The filter value is a string; the empty string is falsy in JavaScript, so it
selects the unfiltered list. -/
def filteredApplications (statusFilter : String) (applications : List Application) :
    List Application :=
  if statusFilter = "" then applications
  else applications.filter (fun app => statusStr app.status == statusFilter)

/-! ## ApplicationLifecycle (spec §4.4) -/

/-- Modelled from the spec: the allowed-edges table of `ApplicationLifecycle`
(§4.4), absent from the visible front-end sources.  Forward edges
preparing→ready, ready→submitted, submitted→interview, interview→offer, plus
X→rejected from every non-terminal X; no backward edges, nothing out of
`rejected` or `offer`. -/
def allowedEdge : AppStatus → AppStatus → Bool
  | .preparing, .ready => true
  | .ready, .submitted => true
  | .submitted, .interview => true
  | .interview, .offer => true
  | .preparing, .rejected => true
  | .ready, .rejected => true
  | .submitted, .rejected => true
  | .interview, .rejected => true
  | _, _ => false

/-- The lifecycle error taxonomy entry `IllegalTransition`, carrying the
rejected edge (spec §4.4, §7). -/
inductive LifecycleError where
  | IllegalTransition (fromStatus toStatus : AppStatus)
deriving DecidableEq, Repr

/-- Modelled from the spec: `ApplicationLifecycle.transition(app, new_status,
note)` (§4.4), absent from the visible sources (the front-end handler is an
optimistic caller).  Validates the edge against the allowed-edges table; on
success appends `TimelineEntry\x7bstatus:new_status, timestamp:now, note\x7d`
and updates `app.status`; on an illegal edge fails with `IllegalTransition`
carrying the rejected edge. -/
def transition (app : Application) (newStatus : AppStatus) (note : String)
    (now : Nat) : Except LifecycleError Application :=
  if allowedEdge app.status newStatus then
    .ok { app with
          status := newStatus,
          timeline := app.timeline ++ [{ status := newStatus, date := now,
                                         note := note }] }
  else
    .error (.IllegalTransition app.status newStatus)

/-- One lifecycle operation on a single application: a status transition or a
free-text note. -/
inductive LifecycleOp where
  | trans (newStatus : AppStatus) (note : String) (now : Nat)
  | note (note : String) (now : Nat)
deriving DecidableEq, Repr

/-- Apply one lifecycle operation; a failing `transition` leaves the
application unmodified (spec §4.4: no partial state change). -/
def applyOp (app : Application) : LifecycleOp → Application
  | .trans newStatus note now =>
    match transition app newStatus note now with
    | .ok app2 => app2
    | .error _ => app
  | .note note now => handleAddNoteApp app note now

/-! ## Orchestrator (spec §4.2) -/

/-- Modelled from the spec: the `Envelope` message record (§3, §6).
`output_data`, `pass_data` and `save_to_memory` are opaque string maps. -/
structure Envelope where
  agent : String
  action : String
  output_data : List (String × String)
  next_agent : Option String
  pass_data : List (String × String)
  save_to_memory : List (String × String)
deriving DecidableEq, Repr

/-- Modelled from the spec: the per-run `SharedMemoryStore` for one user
(§3, §4.1), a keyed map of opaque values. -/
abbrev Store := List (String × String)

/-- Modelled from the spec: merge a `save_to_memory` write set into the store
(§4.1); lookups see the most recent write first. -/
def mergeStore (store : Store) (writes : List (String × String)) : Store :=
  writes ++ store

/-- Modelled from the spec: the context a Capability receives — the store
snapshot plus the incoming envelope's `pass_data` (§4.2 step c, §6). -/
structure Context where
  store_snapshot : Store
  pass_data : List (String × String)

/-- Modelled from the spec: a Capability is one processing stage,
`process(context) -> Envelope`, which may fail (§6).  Transient-retry
bookkeeping is elided: a failure aborts the hop. -/
def Capability := Context → Except String Envelope

/-- Modelled from the spec: the name-keyed Capability registry (§4.2). -/
def Registry := List (String × Capability)

/-- One entry of the run's result log: the returned envelope's
`(agent, action, output_data)` (§4.2 step f). -/
structure LogEntry where
  agent : String
  action : String
  output_data : List (String × String)
deriving DecidableEq, Repr

/-- The orchestrator's error taxonomy entries relevant to a run (§7). -/
inductive RunError where
  | PipelineOverrun
  | UnknownCapability (name : String)
  | Permanent (reason : String)
deriving DecidableEq, Repr

/-- A successful run returns the envelope log and the final store (§4.2). -/
structure RunResult where
  log : List LogEntry
  store : Store
deriving DecidableEq, Repr

/-- Modelled from the spec: the configured hop ceiling, default 32 (§4.2). -/
def hopCeiling : Nat := 32

/-- Modelled from the spec: the orchestrator hop loop (§4.2).  While
`next_agent` is present: once the hop budget is exhausted fail with
`PipelineOverrun`; look up the capability (absent ⇒ `UnknownCapability`);
invoke it on the store snapshot plus `pass_data`; merge `save_to_memory`
before the next hop; log the returned envelope; continue with its
`next_agent`. -/
def runLoop (registry : Registry) (fuel : Nat) (env : Envelope) (store : Store)
    (log : List LogEntry) : Except RunError RunResult :=
  match env.next_agent with
  | none => .ok { log := log, store := store }
  | some name =>
    match fuel with
    | 0 => .error .PipelineOverrun
    | fuel + 1 =>
      match registry.lookup name with
      | none => .error (.UnknownCapability name)
      | some cap =>
        match cap { store_snapshot := store, pass_data := env.pass_data } with
        | .error reason => .error (.Permanent reason)
        | .ok env2 =>
          runLoop registry fuel env2 (mergeStore store env2.save_to_memory)
            (log ++ [{ agent := env2.agent, action := env2.action,
                       output_data := env2.output_data }])

/-- Modelled from the spec: `Orchestrator.run(initial_envelope, registry)`
(§4.2), starting from an empty per-run store and an empty log, with the
default hop ceiling. -/
def run (env : Envelope) (registry : Registry) : Except RunError RunResult :=
  runLoop registry hopCeiling env [] []

/-! ## MatchingEngine (spec §4.3) -/

/-- Whether the character list `needle` occurs contiguously inside `hay`. -/
def containsSeq (hay needle : List Char) : Bool :=
  match hay with
  | [] => needle.isEmpty
  | a :: t => needle.isPrefixOf (a :: t) || containsSeq t needle

/-- Case-insensitive substring match, the matching primitive of §4.3. -/
def containsCI (hay needle : String) : Bool :=
  containsSeq hay.toLower.toList needle.toLower.toList

/-- The searchable text of a job: title plus description (§4.3). -/
def jobText (j : Job) : String :=
  j.title ++ " " ++ j.description

/-- Hard filter (§4.3): the job's company is blacklisted
(case-insensitive exact match). -/
def blacklistedB (p : UserProfile) (j : Job) : Bool :=
  p.filters.blacklisted_companies.any (fun c => c.toLower == j.company.toLower)

/-- Hard filter (§4.3): none of the required keywords appears in the job
text; an empty required set trivially passes. -/
def requiredFailB (p : UserProfile) (j : Job) : Bool :=
  !p.filters.required_keywords.isEmpty &&
    !p.filters.required_keywords.any (fun k => containsCI (jobText j) k)

/-- Hard filter (§4.3): some excluded keyword appears in the job text. -/
def excludedFailB (p : UserProfile) (j : Job) : Bool :=
  p.filters.excluded_keywords.any (fun k => containsCI (jobText j) k)

/-- The resume's extracted keywords, empty when no resume was parsed. -/
def extractedKeywords (p : UserProfile) : List String :=
  match p.resume.parsed with
  | none => []
  | some r => r.extracted_keywords

/-- Modelled from the spec: title/keyword affinity sub-score (§4.3) — the
fraction of target titles and extracted keywords appearing in the job text,
normalized to [0,100] and capped at 100; an empty term list scores 0. -/
def titleScore (p : UserProfile) (j : Job) : Nat :=
  let terms := p.job_preferences.target_titles ++ extractedKeywords p
  if terms.isEmpty then 0
  else min 100 ((terms.filter (fun t => containsCI (jobText j) t)).length * 100
                  / terms.length)

/-- Location fallback of §4.3: 100 when the job's location string matches a
preferred location (case-insensitive substring), else 0. -/
def locationFallback (p : UserProfile) (j : Job) : Nat :=
  if p.job_preferences.locations.any (fun l => containsCI j.location l) then 100
  else 0

/-- Modelled from the spec: location/remote compatibility sub-score (§4.3):
100 for `any`; 100 when the remote status matches the preference category
(remote_only↔remote, hybrid_ok↔\x7bremote,hybrid\x7d, onsite_ok↔any);
otherwise the preferred-location fallback. -/
def locationScore (p : UserProfile) (j : Job) : Nat :=
  match p.job_preferences.remote_preference with
  | .any => 100
  | .onsite_ok => 100
  | .remote_only =>
    if j.remote_status = .remote then 100 else locationFallback p j
  | .hybrid_ok =>
    if j.remote_status = .remote ∨ j.remote_status = .hybrid then 100
    else locationFallback p j

/-- Modelled from the spec: salary fit sub-score (§4.3): 100 when either
range is fully unspecified; else 100 when the job's minimum reaches the
profile's minimum, linearly scaled down to 0 as the shortfall grows past 20%
of the profile's minimum. -/
def salaryScore (p : UserProfile) (j : Job) : Nat :=
  if (p.job_preferences.salary_min = none ∧ p.job_preferences.salary_max = none)
      ∨ (j.salary_range.min = none ∧ j.salary_range.max = none) then 100
  else
    let pmin := p.job_preferences.salary_min.getD 0
    let jmin := (j.salary_range.min.orElse (fun _ => j.salary_range.max)).getD 0
    if pmin ≤ jmin then 100
    else
      let gap := pmin - jmin
      if 100 * pmin ≤ 500 * gap then 0 else 100 - 500 * gap / pmin

/-- Modelled from the spec: freshness sub-score (§4.3), timestamps counted in
days: 100 up to 7 days old, linearly decaying to 0 at 60 days; a job with no
posting date scores 0. -/
def freshnessScore (j : Job) (now : Nat) : Nat :=
  match j.posted_date with
  | none => 0
  | some d =>
    let ageDays := now - d
    if ageDays ≤ 7 then 100
    else if 60 ≤ ageDays then 0
    else (60 - ageDays) * 100 / 53

/-- Modelled from the spec: the weighted total (§4.3) with weights
0.35/0.25/0.25/0.15, rounded and clamped to [0,100]. -/
def weightedScore (p : UserProfile) (j : Job) (now : Nat) : Nat :=
  min 100 ((35 * titleScore p j + 25 * locationScore p j + 25 * salaryScore p j
              + 15 * freshnessScore j now + 50) / 100)

/-- Modelled from the spec: one highlight per sub-score ≥ 70, in the fixed
order title → location → salary → freshness (§4.3). -/
def scoreHighlights (p : UserProfile) (j : Job) (now : Nat) : List String :=
  (if 70 ≤ titleScore p j then ["Strong title and keyword match"] else [])
    ++ (if 70 ≤ locationScore p j then ["Location and remote preference fit"]
        else [])
    ++ (if 70 ≤ salaryScore p j then ["Salary range fits your minimum"] else [])
    ++ (if 70 ≤ freshnessScore j now then ["Recently posted"] else [])

/-- Modelled from the spec: `MatchingEngine.score(profile, job)` (§4.3),
taking the evaluation clock explicitly (freshness and the result's
`computed_at` depend on it).  Hard filters force score 0 with an explanatory
highlight; otherwise the weighted sub-scores apply. -/
def score (p : UserProfile) (j : Job) (now : Nat) : MatchResult :=
  if blacklistedB p j then
    { user_id := p.user_id, job_id := j.job_id, score := 0,
      highlights := ["Company is blacklisted"], computed_at := now }
  else if requiredFailB p j then
    { user_id := p.user_id, job_id := j.job_id, score := 0,
      highlights := ["Missing a required keyword"], computed_at := now }
  else if excludedFailB p j then
    { user_id := p.user_id, job_id := j.job_id, score := 0,
      highlights := ["Contains an excluded keyword"], computed_at := now }
  else
    { user_id := p.user_id, job_id := j.job_id,
      score := weightedScore p j now,
      highlights := scoreHighlights p j now, computed_at := now }

/-- Modelled from the spec: a store-threaded invocation of the matcher, as a
Capability would perform it; `score` is pure and accesses no store (§4.3), so
the store passes through untouched. -/
def scoreInvoke (store : Store) (p : UserProfile) (j : Job) (now : Nat) :
    MatchResult × Store :=
  (score p j now, store)

/-! ## `formatSalary` (`components/JobCard.tsx:36-43`) -/

/-- JavaScript truthiness of a `number | null` salary bound:
`null` and `0` are falsy, every other number is truthy. -/
def otruthy : Option Nat → Bool
  | none => false
  | some n => n != 0

/-- Computes `(n / 1000).toFixed(0)`: thousands with round-half-away-from-zero. -/
def fmtK (n : Nat) : String :=
  toString ((n + 500) / 1000)

/-- Function `formatSalary` from JobCard.tsx: branches on the JS truthiness of the
bounds, so a bound of `0` behaves like an absent bound. -/
def formatSalary (range : SalaryRange) : String :=
  if !(otruthy range.min) && !(otruthy range.max) then "Not specified"
  else if otruthy range.min && otruthy range.max then
    "$" ++ fmtK (range.min.getD 0) ++ "k - $" ++ fmtK (range.max.getD 0) ++ "k"
  else if otruthy range.min then "$" ++ fmtK (range.min.getD 0) ++ "k+"
  else "Up to $" ++ fmtK (range.max.getD 0) ++ "k"

/-! ## Timeline monotonicity -/

/-- The spec invariant (§3): timeline timestamps are non-decreasing in order
of appearance. -/
def datesMono : List TimelineEntry → Bool
  | [] => true
  | [_] => true
  | a :: b :: t => decide (a.date ≤ b.date) && datesMono (b :: t)

/-! ## Sample records used by the witnesses -/

/-- A sample application in `preparing`, shaped like the mock data of
Applications.tsx. -/
def appW : Application :=
  { app_id := "app1", job_id := "1", user_id := "user1", status := .preparing,
    match_score := 92, tailored_resume := "r", cover_letter := "c",
    form_answers := [], submitted_at := none,
    timeline := [{ status := .preparing, date := 1, note := "Application created" }],
    job := none }

/-- A sample application that has reached `rejected`. -/
def appRejW : Application :=
  { appW with app_id := "app4",
              status := .rejected,
              timeline := [{ status := .rejected, date := 3, note := "Position filled" }] }

/-- The envelope a looping capability keeps returning: `next_agent` points
back at the same agent name. -/
def envLoopW : Envelope :=
  { agent := "a", action := "loop", output_data := [], next_agent := some "a",
    pass_data := [], save_to_memory := [] }

/-- A capability that always routes back to itself. -/
def capW : Capability := fun _ => .ok envLoopW

/-- A registry with a single self-looping capability. -/
def regW : Registry := [("a", capW)]

/-- An initial envelope entering the cyclic chain. -/
def env0W : Envelope :=
  { agent := "caller", action := "start", output_data := [], next_agent := some "a",
    pass_data := [], save_to_memory := [] }

/-! ## Claims -/

/-- C1: for every Application and requested new status, if the edge from the
current status to the new one is not in the allowed-edges table, `transition`
fails with `IllegalTransition` carrying the rejected edge, and applying the
operation leaves the Application (status, timeline and every other field)
exactly unchanged. -/
theorem transition_illegal_unmodified (app : Application) (newStatus : AppStatus)
    (note : String) (now : Nat) (h : allowedEdge app.status newStatus = false) :
    transition app newStatus note now
        = .error (.IllegalTransition app.status newStatus)
      ∧ applyOp app (.trans newStatus note now) = app := by
  constructor
  · simp [transition, h]
  · simp [applyOp, transition, h]

/-- Witness for C1: `preparing → interview` is an illegal edge; the sample
application is returned unchanged with `IllegalTransition`. -/
theorem transition_illegal_unmodified_witness :
    allowedEdge AppStatus.preparing AppStatus.interview = false
      ∧ transition appW .interview "skip" 5
          = .error (.IllegalTransition .preparing .interview)
      ∧ applyOp appW (.trans .interview "skip" 5) = appW :=
  ⟨by decide,
   (transition_illegal_unmodified appW .interview "skip" 5 (by decide)).1,
   (transition_illegal_unmodified appW .interview "skip" 5 (by decide)).2⟩

/-- C2: `rejected` is absorbing — after any sequence of transition and
add-note operations, an Application whose status is `rejected` still has
status `rejected`. -/
theorem rejected_absorbing (app : Application) (ops : List LifecycleOp)
    (h : app.status = .rejected) :
    (ops.foldl applyOp app).status = .rejected := by
  induction ops generalizing app with
  | nil => simpa using h
  | cons op t ih =>
    simp only [List.foldl_cons]
    apply ih
    cases op with
    | trans ns note now =>
      have hill : allowedEdge AppStatus.rejected ns = false := by
        cases ns <;> rfl
      simp [applyOp, transition, h, hill]
    | note note now => simpa [applyOp, handleAddNoteApp] using h

/-- Witness for C2: a rejected application stays rejected across a
transition attempt followed by a note. -/
theorem rejected_absorbing_witness :
    appRejW.status = .rejected
      ∧ (([LifecycleOp.trans .submitted "try" 9,
           LifecycleOp.note "follow-up" 10].foldl applyOp appRejW).status
          = .rejected) :=
  ⟨rfl, rejected_absorbing appRejW
          [LifecycleOp.trans .submitted "try" 9, LifecycleOp.note "follow-up" 10] rfl⟩

/-- C3: on a legal transition, both the spec lifecycle `transition` and the
front-end status handler set the status to the new status and append exactly
one timeline entry `(new status, now, supplied note)` at the end, preserving
every prior entry in order. -/
theorem legal_transition_appends (app : Application) (newStatus : AppStatus)
    (note : String) (now : Nat) (hleg : allowedEdge app.status newStatus = true)
    (hnote : note ≠ "") :
    (∃ app2, transition app newStatus note now = .ok app2
        ∧ app2.status = newStatus
        ∧ app2.timeline
            = app.timeline ++ [{ status := newStatus, date := now, note := note }])
      ∧ (handleUpdateStatusApp app newStatus (some note) now).status = newStatus
      ∧ (handleUpdateStatusApp app newStatus (some note) now).timeline
          = app.timeline ++ [{ status := newStatus, date := now, note := note }] := by
  refine ⟨⟨{ app with
             status := newStatus,
             timeline := app.timeline
               ++ [{ status := newStatus, date := now, note := note }] },
           ?_, rfl, rfl⟩, rfl, ?_⟩
  · simp [transition, hleg]
  · simp [handleUpdateStatusApp, noteOrDefault, hnote]

/-- Witness for C3: `preparing → ready` on the sample application appends
exactly the one new entry. -/
theorem legal_transition_appends_witness :
    allowedEdge appW.status AppStatus.ready = true
      ∧ (handleUpdateStatusApp appW .ready (some "go") 7).timeline
          = appW.timeline ++ [{ status := .ready, date := 7, note := "go" }] :=
  ⟨by decide,
   (legal_transition_appends appW .ready "go" 7 (by decide) (by decide)).2.2⟩

/-- Appending an entry whose date dominates the existing ones preserves
timestamp monotonicity. -/
theorem datesMono_append (l : List TimelineEntry) (e : TimelineEntry)
    (hl : datesMono l = true) (hle : ∀ x ∈ l, x.date ≤ e.date) :
    datesMono (l ++ [e]) = true := by
  induction l with
  | nil => rfl
  | cons a t ih =>
    cases t with
    | nil =>
      simp [datesMono]
      exact hle a (by simp)
    | cons b t2 =>
      have h1 : a.date ≤ b.date ∧ datesMono (b :: t2) = true := by
        simpa [datesMono] using hl
      have h2 : datesMono ((b :: t2) ++ [e]) = true :=
        ih h1.2 (fun x hx => hle x (by simp [hx]))
      simpa [datesMono, h1.1] using h2

/-- C4: assuming the clock never goes backwards (the new timestamp dominates
every existing one), both the status handler and the note handler preserve
the non-decreasing-timestamps invariant of the timeline. -/
theorem timeline_mono_preserved (app : Application) (s : AppStatus)
    (note1 : Option String) (note2 : String) (now : Nat)
    (h : datesMono app.timeline = true)
    (hclock : ∀ e ∈ app.timeline, e.date ≤ now) :
    datesMono (handleUpdateStatusApp app s note1 now).timeline = true
      ∧ datesMono (handleAddNoteApp app note2 now).timeline = true := by
  constructor
  · exact datesMono_append app.timeline _ h hclock
  · exact datesMono_append app.timeline _ h hclock

/-- Witness for C4: appending at time 6 to the sample application's
monotone timeline keeps it monotone. -/
theorem timeline_mono_preserved_witness :
    datesMono appW.timeline = true
      ∧ datesMono (handleUpdateStatusApp appW .ready none 6).timeline = true
      ∧ datesMono (handleAddNoteApp appW "note" 6).timeline = true :=
  ⟨by decide,
   (timeline_mono_preserved appW .ready none "note" 6 (by decide)
      (by intro e he; simp [appW] at he; simp [he])).1,
   (timeline_mono_preserved appW .ready none "note" 6 (by decide)
      (by intro e he; simp [appW] at he; simp [he])).2⟩

/-- C5: `handleAddNote` always succeeds (it is a total function), appends
exactly one timeline entry carrying the current status and the given note,
and leaves the status and every other field unchanged. -/
theorem add_note_appends_current_status (app : Application) (note : String)
    (now : Nat) :
    (handleAddNoteApp app note now).status = app.status
      ∧ (handleAddNoteApp app note now).timeline
          = app.timeline ++ [{ status := app.status, date := now, note := note }]
      ∧ (handleAddNoteApp app note now).app_id = app.app_id
      ∧ (handleAddNoteApp app note now).job_id = app.job_id
      ∧ (handleAddNoteApp app note now).user_id = app.user_id
      ∧ (handleAddNoteApp app note now).match_score = app.match_score
      ∧ (handleAddNoteApp app note now).tailored_resume = app.tailored_resume
      ∧ (handleAddNoteApp app note now).cover_letter = app.cover_letter
      ∧ (handleAddNoteApp app note now).form_answers = app.form_answers
      ∧ (handleAddNoteApp app note now).submitted_at = app.submitted_at
      ∧ (handleAddNoteApp app note now).job = app.job :=
  ⟨rfl, rfl, rfl, rfl, rfl, rfl, rfl, rfl, rfl, rfl, rfl⟩

/-- C6: `score` is deterministic and pure — invoked through the
store-threaded wrapper against any two ambient stores it yields the same
numeric score and the same highlights list, equals the pure `score` of its
two data arguments (at a fixed clock), and leaves the store untouched;
invoking it twice in sequence repeats the identical result. -/
theorem score_deterministic_pure (p : UserProfile) (j : Job) (now : Nat)
    (s₁ s₂ : Store) :
    (scoreInvoke s₁ p j now).1.score = (scoreInvoke s₂ p j now).1.score
      ∧ (scoreInvoke s₁ p j now).1.highlights
          = (scoreInvoke s₂ p j now).1.highlights
      ∧ (scoreInvoke s₁ p j now).1 = score p j now
      ∧ (scoreInvoke s₁ p j now).2 = s₁
      ∧ (scoreInvoke (scoreInvoke s₁ p j now).2 p j now).1
          = (scoreInvoke s₁ p j now).1 :=
  ⟨rfl, rfl, rfl, rfl, rfl⟩

/-- C7: with a registry whose capabilities always succeed and always name a
next agent that exists in the registry (a never-ending `next_agent` chain),
`run` does not loop forever: it fails with `PipelineOverrun` once the hop
budget is exhausted. -/
theorem run_cyclic_overruns (env : Envelope) (reg : Registry)
    (hstart : ∃ n cap, env.next_agent = some n ∧ reg.lookup n = some cap)
    (hcyc : ∀ name cap ctx, reg.lookup name = some cap →
        ∃ env2 n2 cap2, cap ctx = .ok env2 ∧ env2.next_agent = some n2
          ∧ reg.lookup n2 = some cap2) :
    run env reg = .error .PipelineOverrun := by
  have key : ∀ fuel (env : Envelope) (store : Store) (log : List LogEntry),
      (∃ n cap, env.next_agent = some n ∧ reg.lookup n = some cap) →
      runLoop reg fuel env store log = .error .PipelineOverrun := by
    intro fuel
    induction fuel with
    | zero =>
      intro env store log hs
      obtain ⟨n, cap, hn, _⟩ := hs
      simp [runLoop, hn]
    | succ f ih =>
      intro env store log hs
      obtain ⟨n, cap, hn, hl⟩ := hs
      obtain ⟨env2, n2, cap2, hcap, hn2, hl2⟩ :=
        hcyc n cap { store_snapshot := store, pass_data := env.pass_data } hl
      rw [runLoop]
      simp only [hn, hl, hcap]
      exact ih env2 _ _ ⟨n2, cap2, hn2, hl2⟩
  exact key hopCeiling env [] [] hstart

/-- Witness for C7: a one-capability registry that routes back to itself
makes `run` fail with `PipelineOverrun`. -/
theorem run_cyclic_overruns_witness :
    run env0W regW = .error .PipelineOverrun := by
  apply run_cyclic_overruns env0W regW ⟨"a", capW, rfl, rfl⟩
  intro name cap ctx h
  cases hb : name == "a" with
  | false => simp [regW, List.lookup, hb] at h
  | true =>
    have hcap : cap = capW := by simpa [regW, List.lookup, hb] using h.symm
    exact ⟨envLoopW, "a", capW, by subst hcap; rfl, rfl, rfl⟩

/-- C8: both list-level handlers are frame-preserving — they keep the list's
length (and order: position `i` still holds position `i`'s application), and
every application whose `app_id` differs from the targeted one is exactly
unchanged. -/
theorem untargeted_unchanged (apps : List Application) (appId : String)
    (s : AppStatus) (note1 : Option String) (note2 : String) (now : Nat) :
    (handleUpdateStatus apps appId s note1 now).length = apps.length
      ∧ (handleAddNote apps appId note2 now).length = apps.length
      ∧ ∀ (i : Nat) (a : Application), apps[i]? = some a → a.app_id ≠ appId →
          (handleUpdateStatus apps appId s note1 now)[i]? = some a
            ∧ (handleAddNote apps appId note2 now)[i]? = some a := by
  refine ⟨by simp [handleUpdateStatus], by simp [handleAddNote], ?_⟩
  intro i a ha hne
  constructor
  · simp [handleUpdateStatus, List.getElem?_map, ha, hne]
  · simp [handleAddNote, List.getElem?_map, ha, hne]

/-- Witness for C8: updating `app4` leaves the distinct `app1` at its
position, under both handlers. -/
theorem untargeted_unchanged_witness :
    ([appW, appRejW][0]? = some appW)
      ∧ appW.app_id ≠ "app4"
      ∧ (handleUpdateStatus [appW, appRejW] "app4" .submitted none 9)[0]?
          = some appW
      ∧ (handleAddNote [appW, appRejW] "app4" "ping" 9)[0]? = some appW :=
  ⟨rfl, by decide,
   ((untargeted_unchanged [appW, appRejW] "app4" .submitted none "ping" 9).2.2
      0 appW rfl (by decide)).1,
   ((untargeted_unchanged [appW, appRejW] "app4" .submitted none "ping" 9).2.2
      0 appW rfl (by decide)).2⟩

/-- C9: the status filter is exact — an empty filter string (falsy in
JavaScript) shows every application, and a non-empty one shows exactly the
applications whose status string equals it, as a sublist (hence in original
order) of the input list. -/
theorem filter_exact (f : String) (apps : List Application) :
    (f = "" → filteredApplications f apps = apps)
      ∧ (f ≠ "" →
          (∀ a, a ∈ filteredApplications f apps
              ↔ a ∈ apps ∧ statusStr a.status = f)
            ∧ List.Sublist (filteredApplications f apps) apps) := by
  constructor
  · intro h
    simp [filteredApplications, h]
  · intro h
    constructor
    · intro a
      simp [filteredApplications, h, List.mem_filter]
    · simp only [filteredApplications, if_neg h]
      exact List.filter_sublist apps

/-- Witness for C9: the empty filter shows both sample applications; the
"rejected" filter membership test holds for the rejected one. -/
theorem filter_exact_witness :
    filteredApplications "" [appW, appRejW] = [appW, appRejW]
      ∧ (appRejW ∈ filteredApplications "rejected" [appW, appRejW]
          ↔ appRejW ∈ [appW, appRejW] ∧ statusStr appRejW.status = "rejected") :=
  ⟨(filter_exact "" [appW, appRejW]).1 rfl,
   ((filter_exact "rejected" [appW, appRejW]).2 (by decide)).1 appRejW⟩

/-- A JS-falsy salary bound is exactly an absent or zero bound. -/
theorem otruthy_false_iff (o : Option Nat) :
    otruthy o = false ↔ (o = none ∨ o = some 0) := by
  cases o with
  | none => simp [otruthy]
  | some n => simp [otruthy]

/-- C10: `formatSalary` treats a bound of 0 like an absent bound — it
returns "Not specified" exactly when each bound is null or 0; in particular
`\x7bmin: 0, max: null\x7d` renders "Not specified", and `\x7bmin: 0,
max: m\x7d` with positive `m` renders the one-sided "Up to $Xk". -/
theorem formatSalary_zero_as_absent :
    (∀ r : SalaryRange, formatSalary r = "Not specified"
        ↔ ((r.min = none ∨ r.min = some 0) ∧ (r.max = none ∨ r.max = some 0)))
      ∧ formatSalary { min := some 0, max := none } = "Not specified"
      ∧ ∀ m : Nat, 0 < m →
          formatSalary { min := some 0, max := some m }
            = "Up to $" ++ fmtK m ++ "k" := by
  refine ⟨?_, rfl, ?_⟩
  · intro r
    rcases r with ⟨mi, ma⟩
    constructor
    · intro h
      cases hmi : otruthy mi with
      | false =>
        cases hma : otruthy ma with
        | false =>
          exact ⟨(otruthy_false_iff mi).1 hmi, (otruthy_false_iff ma).1 hma⟩
        | true =>
          simp [formatSalary, hmi, hma] at h
          have hd := congrArg String.data h
          simp [String.data_append] at hd
      | true =>
        cases hma : otruthy ma with
        | false =>
          simp [formatSalary, hmi, hma] at h
          have hd := congrArg String.data h
          simp [String.data_append] at hd
        | true =>
          simp [formatSalary, hmi, hma] at h
          have hd := congrArg String.data h
          simp [String.data_append] at hd
    · intro hz
      have hmi : otruthy mi = false := (otruthy_false_iff mi).2 hz.1
      have hma : otruthy ma = false := (otruthy_false_iff ma).2 hz.2
      simp [formatSalary, hmi, hma]
  · intro m hm
    have hma : otruthy (some m) = true := by
      simp [otruthy]
      omega
    simp [formatSalary, otruthy, hma]
    intro h0
    exact absurd h0 (by omega)

/-- Witness for C10: a positive max of 95000 with a zero min renders the
one-sided form. -/
theorem formatSalary_zero_as_absent_witness :
    (0 : Nat) < 95000
      ∧ formatSalary { min := some 0, max := some 95000 }
          = "Up to $" ++ fmtK 95000 ++ "k" :=
  ⟨by decide, formatSalary_zero_as_absent.2.2 95000 (by decide)⟩

end JobZoom
